import Mathlib

/-!
Verification development for the OpenAI provider adapter
(`rust/models-openai/src/lib.rs`): a shallow embedding of the
task-to-provider translation and attachment-fallback pipeline, the model
catalog cache, and the image-request builder, together with theorems about
the properties claimed of them.

Network effects are modelled by an explicit environment (`Env`, `ListEnv`)
supplying the outcome of each remote call, and every operation additionally
returns the ordered trace of network calls it performed.
-/

/-! ## String helpers

The source uses Rust `str` operations (`starts_with`, `contains`,
`eq_ignore_ascii_case`, `to_lowercase`, `trim`). They are embedded here as
executable functions over `String.data` character lists so that concrete
instances reduce in the kernel. -/

/-- Rust `str::starts_with` (byte/char-exact, case sensitive). -/
def strStartsWith (s pat : String) : Bool :=
  pat.data.isPrefixOf s.data

/-- Helper for substring search: does `pat` occur in the character list? -/
def containsAux (pat : List Char) : List Char → Bool
  | [] => pat.isEmpty
  | c :: rest => pat.isPrefixOf (c :: rest) || containsAux pat rest

/-- Rust `str::contains` with a string pattern. -/
def strContains (s pat : String) : Bool :=
  containsAux pat.data s.data

/-- Lower-case an ASCII letter, leaving other characters unchanged
(the mapping applied by Rust `eq_ignore_ascii_case`). -/
def asciiLower (c : Char) : Char :=
  if 'A' ≤ c ∧ c ≤ 'Z' then Char.ofNat (c.toNat + 32) else c

/-- Rust `str::eq_ignore_ascii_case`. -/
def eqIgnoreAsciiCase (a b : String) : Bool :=
  a.data.map asciiLower == b.data.map asciiLower

/-- Rust `str::to_lowercase` (inputs compared by the source are ASCII). -/
def strToLower (s : String) : String :=
  String.mk (s.data.map asciiLower)

/-- Rust `str::trim`: strip leading and trailing whitespace. -/
def strTrim (s : String) : String :=
  String.mk (((s.data.dropWhile Char.isWhitespace).reverse.dropWhile
    Char.isWhitespace).reverse)

/-- Join a list of strings with a separator (Rust `Itertools::join` /
`Vec::join`). -/
def strIntercalate (sep : String) : List String → String
  | [] => ""
  | [s] => s
  | s :: rest => s ++ (sep ++ strIntercalate sep rest)

/-- UTF-8 encoding of one character (Rust `str::as_bytes`, per scalar). -/
def utf8EncodeChar (c : Char) : List Nat :=
  let n := c.toNat
  if n < 128 then [n]
  else if n < 2048 then [192 + n / 64, 128 + n % 64]
  else if n < 65536 then [224 + n / 4096, 128 + n / 64 % 64, 128 + n % 64]
  else [240 + n / 262144, 128 + n / 4096 % 64, 128 + n / 64 % 64, 128 + n % 64]

/-- Rust `str::as_bytes`: the UTF-8 bytes of the string. -/
def utf8Bytes (s : String) : List Nat :=
  (s.data.map utf8EncodeChar).flatten

/-- Value of one character in the standard base64 alphabet. -/
def base64Val (c : Char) : Option Nat :=
  if 'A' ≤ c ∧ c ≤ 'Z' then some (c.toNat - 65)
  else if 'a' ≤ c ∧ c ≤ 'z' then some (c.toNat - 97 + 26)
  else if '0' ≤ c ∧ c ≤ '9' then some (c.toNat - 48 + 52)
  else if c = '+' then some 62
  else if c = '/' then some 63
  else none

/-- Decode standard base64 (with `=` padding) four characters at a time;
`none` on any malformed input, mirroring the strict `STANDARD` engine used
by the source. -/
def base64Chunks : List Char → Option (List Nat)
  | [] => some []
  | a :: b :: c :: d :: rest =>
      match base64Val a, base64Val b with
      | some va, some vb =>
          if c = '=' ∧ d = '=' ∧ rest = [] then
            some [va * 4 + vb / 16]
          else
            match base64Val c with
            | some vc =>
                if d = '=' ∧ rest = [] then
                  some [va * 4 + vb / 16, vb % 16 * 16 + vc / 4]
                else
                  match base64Val d with
                  | some vd =>
                      (base64Chunks rest).map fun tl =>
                        (va * 4 + vb / 16) :: (vb % 16 * 16 + vc / 4)
                          :: (vc % 4 * 64 + vd) :: tl
                  | none => none
            | none => none
      | _, _ => none
  | _ => none

/-- Rust `BASE64.decode` on the UTF-8 text of the content. -/
def base64Decode (s : String) : Option (List Nat) :=
  base64Chunks s.data

/-- Lexicographic comparison of character lists (Rust `Ord` on `str`). -/
def charListLe : List Char → List Char → Bool
  | [], _ => true
  | _ :: _, [] => false
  | a :: as, b :: bs => if a < b then true else if b < a then false else charListLe as bs

/-- Rust `str::cmp` as a `≤` test, used by `sorted_by`. -/
def strLeB (a b : String) : Bool :=
  charListLe a.data b.data

/-- Insert into a sorted list (helper for `sortBy`). -/
def insertSortedBy (le : α → α → Bool) : α → List α → List α
  | a, [] => [a]
  | a, b :: l => if le a b then a :: b :: l else b :: insertSortedBy le a l

/-- Stable sort by a boolean comparator (Rust `Itertools::sorted_by`). -/
def sortBy (le : α → α → Bool) : List α → List α
  | [] => []
  | a :: l => insertSortedBy le a (sortBy le l)

/-! ## Data model

Shallow embedding of the schema types consumed by the adapter
(`ModelTask`, `Message`, `MessagePart`, `InstructionAttachment`, `File`)
and of the adapter's own wire types. -/

/-- Source: enum of model input/output kinds (`Text`, `Image`, `Audio`,
`Video`; the `model` crate calls the enum by the letters M-o-d-e-l-I-O). -/
inductive ModelIOKind
  | text
  | image
  | audio
  | video
deriving DecidableEq, BEq, Repr

/-- Source: `File` descriptor of an attachment. The source stores the
transfer-encoding hint under `file.options.transfer_encoding`; it is
flattened into a field here. -/
structure FileDesc where
  name : String
  media_type : Option String
  content : Option String
  transfer_encoding : Option String
deriving DecidableEq, Repr

/-- Source: `InstructionAttachment` (schema crate): an alias and a file. -/
structure InstructionAttachment where
  «alias» : String
  file : FileDesc
deriving DecidableEq, Repr

/-- Source: `MessageRole`. The source stores `Option<MessageRole>` on a
message and resolves it with `unwrap_or_default()` before every use; the
embedding takes the already-resolved role. -/
inductive MessageRole
  | system
  | user
  | model
deriving DecidableEq, Repr

/-- Source: `MessagePart` — text, image reference (URL), or another media
kind (dropped with a warning by every translation). -/
inductive MessagePart
  | text (value : String)
  | imageObject (content_url : String)
  | other (description : String)
deriving DecidableEq, Repr

/-- Source: `Message`: a role and ordered parts. -/
structure Message where
  role : MessageRole
  parts : List MessagePart
deriving DecidableEq, Repr

/-- Source: `ModelTaskKind`. -/
inductive ModelTaskKind
  | messageGeneration
  | imageGeneration
deriving DecidableEq, Repr

/-- Source: `ModelTask` — the fields the adapter inspects. Generation
parameters that are only passed through verbatim (temperature, top-p,
seed, stop, max-tokens, repeat-penalty and the ignored local-inference
options) are omitted: no claim concerns their values. -/
structure ModelTask where
  kind : ModelTaskKind
  messages : List Message
  attachments : Option (List InstructionAttachment)
  dry_run : Bool
  image_size : Option (Nat × Nat)
  image_quality : Option String
  image_style : Option String
deriving DecidableEq, Repr

/-- Source: `OpenAIModel` struct. -/
structure OpenAIModel where
  model : String
  context_length : Nat
  inputs : List ModelIOKind
  outputs : List ModelIOKind
deriving DecidableEq, Repr

/-- Source: `Model::id` — `format!("openai/{}", self.model)`. -/
def OpenAIModel.id (m : OpenAIModel) : String :=
  "openai/" ++ m.model

/-- Source: `ModelOutput` results: the empty placeholder output
(`ModelOutput::empty`), a text output (`ModelOutput::from_text`) and a URL
output (`ModelOutput::from_url`). -/
inductive ModelOutput
  | empty
  | fromText (text : String)
  | fromUrl (media_type : String) (url : String)
deriving DecidableEq, Repr

/-! ## Classifier and fallback predicates (`lib.rs` lines 145-169, 341-345) -/

/-- Source: `should_upload_attachment` — an attachment is upload-eligible
iff its declared media type is present and is `application/pdf`
(ASCII-case-insensitively) or starts with `image/`, `audio/` or `video/`. -/
def shouldUploadAttachment (attachment : InstructionAttachment) : Bool :=
  match attachment.file.media_type with
  | some mt =>
      if eqIgnoreAsciiCase mt "application/pdf" then true
      else if strStartsWith mt "image/" then true
      else if strStartsWith mt "audio/" then true
      else if strStartsWith mt "video/" then true
      else false
  | none => false

/-- Source: `should_retry_with_vision`. -/
def shouldRetryWithVision (model errorBody : String) : Bool :=
  (strStartsWith model "gpt-5" || strStartsWith model "gpt-4.1")
    && (strContains errorBody "Invalid input" && strContains errorBody "context stuffing"
        || strContains errorBody "does not support image inputs")

/-- Source: `map_to_vision_model`. -/
def mapToVisionModel (model : String) : Option String :=
  if strStartsWith model "gpt-5" then some "gpt-4.1-mini"
  else if strStartsWith model "gpt-4.1" then some "gpt-4o-mini"
  else none

/-- Source: `supports_attachments` — the model declares at least one
non-text input capability. -/
def OpenAIModel.supportsAttachments (m : OpenAIModel) : Bool :=
  m.inputs.contains .image || m.inputs.contains .audio || m.inputs.contains .video

/-! ## Wire types of the responses endpoint (`lib.rs` lines 753-851) -/

/-- Source: `ResponseContent` — typed content blocks of a rich request. -/
inductive ResponseContent
  | inputText (text : String)
  | outputText (text : String)
  | inputFile (file_id : String)
  | inputImage (file_id : Option String) (image_url : Option String)
deriving DecidableEq, Repr

/-- Source: `ResponseMessage` — a role string and content blocks. -/
structure ResponseMessage where
  role : String
  content : List ResponseContent
deriving DecidableEq, Repr

/-- Source: `ResponsesRequest`. The pass-through generation parameters
(temperature, top-p, stop, seed, max-output-tokens) are omitted, as no
claim concerns them. -/
structure ResponsesRequest where
  model : String
  input : List ResponseMessage
deriving DecidableEq, Repr

/-- Source: `UploadedAttachment` — alias, provider file id, media type. -/
structure UploadedAttachment where
  «alias» : String
  file_id : String
  media_type : String
deriving DecidableEq, Repr

/-- Source: `UploadedAttachment::to_contents` — a text block naming the
alias plus an input-image block (image media type) or input-file block. -/
def UploadedAttachment.to_contents (u : UploadedAttachment) : List ResponseContent :=
  let contents := [ResponseContent.inputText ("Attachment `" ++ (u.«alias» ++ "`"))]
  if strStartsWith u.media_type "image/" then
    contents ++ [ResponseContent.inputImage (some u.file_id) none]
  else
    contents ++ [ResponseContent.inputFile u.file_id]

/-- Source: `ResponseOutputContent` of a responses-endpoint reply. -/
inductive ResponseOutputContent
  | outputText (text : String)
  | summaryText (text : String)
  | other
deriving DecidableEq, Repr

/-- Source: `ResponseOutput` — one output item (role ignored). -/
structure ResponseOutputItem where
  content : List ResponseOutputContent
deriving DecidableEq, Repr

/-- Source: `ResponsesResponse`. -/
structure ResponsesResponse where
  output : List ResponseOutputItem
deriving DecidableEq, Repr

/-! ## Message translation (`lib.rs` lines 194-280 and 544-588) -/

/-- Role string used by the responses endpoint
(`system` / `user` / `assistant`). -/
def roleString : MessageRole → String
  | .system => "system"
  | .user => "user"
  | .model => "assistant"

/-- Translation of one message part for the rich request: text parts
become input-text blocks (output-text for the assistant role),
image-reference parts become input-image blocks with a URL, all other
parts are dropped (warning only). -/
def messagePartToResponseContent (role : String) (part : MessagePart) : Option ResponseContent :=
  match part with
  | .text t =>
      if role == "assistant" then some (ResponseContent.outputText t)
      else some (ResponseContent.inputText t)
  | .imageObject url => some (ResponseContent.inputImage none (some url))
  | .other _ => none

/-- Source: `messages_to_response_input` — per-message translation for the
rich request, preserving order. -/
def messagesToResponseInput (messages : List Message) : List ResponseMessage :=
  messages.map fun message =>
    let role := roleString message.role
    { role := role
      content := message.parts.filterMap (messagePartToResponseContent role) }

/-- Text value of a part, `none` for non-text parts. -/
def partText : MessagePart → Option String
  | .text t => some t
  | _ => none

/-- Chat-endpoint user content parts (text block or image-URL block with
its fixed `auto` detail level). -/
inductive ChatUserPart
  | text (t : String)
  | imageUrl (url : String) (detail : String)
deriving DecidableEq, Repr

/-- Chat-endpoint request message, tagged by role as in
`ChatCompletionRequestMessage`. -/
inductive ChatMessage
  | system (content : String)
  | user (content : List ChatUserPart)
  | assistant (content : String)
deriving DecidableEq, Repr

/-- Role bucket of a translated chat message. -/
def chatRole : ChatMessage → String
  | .system _ => "system"
  | .user _ => "user"
  | .assistant _ => "assistant"

/-- Source: the per-message chat translation inside `message_generation`:
system messages become one text blob (parts joined with a blank line),
user messages become a list of text/image-URL parts, assistant messages
become one concatenated text blob; non-text parts are dropped with a
warning in the system and assistant buckets. -/
def messageToChatMessage (message : Message) : ChatMessage :=
  match message.role with
  | .system => ChatMessage.system (strIntercalate "\n\n" (message.parts.filterMap partText))
  | .user =>
      ChatMessage.user (message.parts.filterMap fun part =>
        match part with
        | .text t => some (ChatUserPart.text t)
        | .imageObject url => some (ChatUserPart.imageUrl url "auto")
        | .other _ => none)
  | .model => ChatMessage.assistant (strIntercalate "" (message.parts.filterMap partText))

/-- Chat-endpoint request (generation parameters omitted, as for
`ResponsesRequest`). -/
structure ChatRequest where
  model : String
  messages : List ChatMessage
deriving DecidableEq, Repr

/-! ## Image-request builder (`lib.rs` lines 590-723) -/

/-- Source: `ImageSize` — the five enumerated provider size options. -/
inductive ImageSizeChoice
  | s256x256
  | s512x512
  | s1024x1024
  | s1024x1792
  | s1792x1024
deriving DecidableEq, Repr

/-- Source: `ImageQuality`. -/
inductive ImageQualityChoice
  | standard
  | hd
deriving DecidableEq, Repr

/-- Source: `ImageStyle`. -/
inductive ImageStyleChoice
  | natural
  | vivid
deriving DecidableEq, Repr

/-- Image request shape built by `image_generation` (response format is
fixed to URL by the source and carries no information). -/
structure ImageRequest where
  prompt : String
  size : Option ImageSizeChoice
  quality : Option ImageQualityChoice
  style : Option ImageStyleChoice
deriving DecidableEq, Repr

/-- Error text of the unsupported-size bailout:
`Unsupported image size `{w}x{h}``. -/
def unsupportedSizeMsg (w h : Nat) : String :=
  "Unsupported image size `" ++ (toString w ++ ("x" ++ (toString h ++ "`")))

/-- Source: the `match (w, h)` in `image_generation` mapping a size pair to
an enumerated option by exact match. -/
def imageSizeFor (w h : Nat) : Except String ImageSizeChoice :=
  match w, h with
  | 256, 256 => Except.ok ImageSizeChoice.s256x256
  | 512, 512 => Except.ok ImageSizeChoice.s512x512
  | 1024, 1024 => Except.ok ImageSizeChoice.s1024x1024
  | 1024, 1792 => Except.ok ImageSizeChoice.s1024x1792
  | 1792, 1024 => Except.ok ImageSizeChoice.s1792x1024
  | _, _ => Except.error (unsupportedSizeMsg w h)

/-- Source: the quality match in `image_generation`
(case-insensitive `std`/`standard` and `hd`/`high-definition`). -/
def imageQualityFor (quality : String) : Except String ImageQualityChoice :=
  let q := strToLower quality
  if q == "std" || q == "standard" then Except.ok ImageQualityChoice.standard
  else if q == "hd" || q == "high-definition" then Except.ok ImageQualityChoice.hd
  else Except.error ("Unsupported image quality `" ++ (quality ++ "`"))

/-- Source: the style match in `image_generation`
(case-insensitive `nat`/`natural` and `viv`/`vivid`). -/
def imageStyleFor (style : String) : Except String ImageStyleChoice :=
  let s := strToLower style
  if s == "nat" || s == "natural" then Except.ok ImageStyleChoice.natural
  else if s == "viv" || s == "vivid" then Except.ok ImageStyleChoice.vivid
  else Except.error ("Unsupported image style `" ++ (style ++ "`"))

/-- Source: the request-building prefix of `image_generation`: prompt from
the text parts of the final message (non-text parts dropped with a
warning), then size, quality and style validation in that order. -/
def buildImageRequest (task : ModelTask) : Except String ImageRequest := do
  let prompt :=
    match task.messages.getLast? with
    | some message => strIntercalate "" (message.parts.filterMap partText)
    | none => ""
  let size ←
    match task.image_size with
    | some (w, h) => (imageSizeFor w h).map some
    | none => Except.ok none
  let quality ←
    match task.image_quality with
    | some q => (imageQualityFor q).map some
    | none => Except.ok none
  let style ←
    match task.image_style with
    | some s => (imageStyleFor s).map some
    | none => Except.ok none
  Except.ok { prompt := prompt, size := size, quality := quality, style := style }

/-! ## Attachment payload extraction (`lib.rs` lines 726-751) -/

/-- Error text for an upload-eligible attachment with no inline content. -/
def noContentErrorMsg (a : String) : String :=
  "Attachment `" ++ (a ++ "` does not have any inline content to upload.")

/-- Error text for invalid base64 content (the source appends the decode
error's own detail text, which is not modelled). -/
def invalidBase64Msg (a : String) : String :=
  "Attachment `" ++ (a ++ "` content is invalid base64")

/-- Source: `attachment_bytes` — payload bytes of an attachment: fails
when there is no inline content; decodes base64 when the transfer-encoding
hint says so (ASCII-case-insensitively); otherwise the raw UTF-8 bytes. -/
def attachment_bytes (attachment : InstructionAttachment) : Except String (List Nat) :=
  match attachment.file.content with
  | none => Except.error (noContentErrorMsg attachment.«alias»)
  | some content =>
      if (attachment.file.transfer_encoding.map fun enc =>
            eqIgnoreAsciiCase enc "base64").getD false then
        match base64Decode content with
        | some bytes => Except.ok bytes
        | none => Except.error (invalidBase64Msg attachment.«alias»)
      else Except.ok (utf8Bytes content)

/-! ## Network environment and traces -/

/-- Outcome of one POST to the responses endpoint: a parsed success body,
or a non-success status code with its body text. -/
inductive HttpResult
  | success (response : ResponsesResponse)
  | failure (status : Nat) (body : String)
deriving DecidableEq, Repr

/-- Result of one image request: a URL image or another payload kind. -/
inductive ImageResult
  | url (u : String)
  | other
deriving DecidableEq, Repr

/-- One network call performed by the adapter, carrying the request it
sent; the trace of these calls is returned alongside every result. -/
inductive NetworkCall
  | fileUpload («alias» : String)
  | chatCompletion (request : ChatRequest)
  | responsesRequest (request : ResponsesRequest)
  | imageRequest (request : ImageRequest)
  | modelListing
deriving DecidableEq, Repr

/-- Environment supplying the outcome of each remote interaction:
credential availability, the per-attachment file-upload outcome (an opaque
file id or an error), the first and the retry responses-endpoint results,
the chat result (message contents of the returned choices) and the image
result list. -/
structure Env where
  hasCredential : Bool
  uploadResult : InstructionAttachment → Except String String
  firstResponse : HttpResult
  retryResponse : HttpResult
  chatResponse : Except String (List (Option String))
  imageResponse : Except String (List ImageResult)

/-- Error produced when the credential secret is unavailable (the text
comes from the external `secrets` crate and is modelled abstractly). -/
def missingCredentialMsg : String :=
  "Secret `OPENAI_API_KEY` is not available"

/-! ## Attachment upload and the responses pipeline (`lib.rs` 347-542) -/

/-- Source: `upload_attachment` — extract the payload bytes (failing before
any network traffic when that fails), then perform one multipart POST to
the file-storage endpoint; on success the provider file id is wrapped into
an `UploadedAttachment` with the resolved media type
(fallback `application/octet-stream`). The upload filename
(`<alias>.bin` fallback) does not influence any observable modelled here. -/
def uploadAttachment (env : Env) (attachment : InstructionAttachment) :
    List NetworkCall × Except String UploadedAttachment :=
  match attachment_bytes attachment with
  | Except.error e => ([], Except.error e)
  | Except.ok _bytes =>
      let mediaType := attachment.file.media_type.getD "application/octet-stream"
      ([NetworkCall.fileUpload attachment.«alias»],
        match env.uploadResult attachment with
        | Except.ok fileId =>
            Except.ok { «alias» := attachment.«alias», file_id := fileId, media_type := mediaType }
        | Except.error e => Except.error e)

/-- Source: the upload loop of `responses_message_generation` — skip
ineligible attachments, mark every eligible one as attempted, collect the
successful uploads in order and log (only) the failures. Returns the
network trace, the attempted flag and the successful uploads. -/
def uploadPhase (env : Env) : List InstructionAttachment →
    List NetworkCall × Bool × List UploadedAttachment
  | [] => ([], false, [])
  | attachment :: rest =>
      match uploadPhase env rest with
      | (calls, attempted, ups) =>
          if shouldUploadAttachment attachment then
            match uploadAttachment env attachment with
            | (c, Except.ok u) => (c ++ calls, true, u :: ups)
            | (c, Except.error _) => (c ++ calls, true, ups)
          else (calls, attempted, ups)

/-- Index of the last element satisfying `p`
(Rust `Iterator::rposition`). -/
def rposition (p : ResponseMessage → Bool) : List ResponseMessage → Option Nat
  | [] => none
  | x :: xs =>
      match rposition p xs with
      | some i => some (i + 1)
      | none => if p x then some 0 else none

/-- Source: the splice step of `responses_message_generation` — append the
content blocks of every uploaded attachment to the last user-role message,
or synthesize a trailing user message when none exists; no change when
nothing was uploaded. -/
def spliceUploaded (messages : List ResponseMessage)
    (uploaded : List UploadedAttachment) : List ResponseMessage :=
  match rposition (fun m => m.role == "user") messages with
  | some p =>
      if uploaded.isEmpty then messages
      else
        match messages.get? p with
        | some m =>
            messages.set p
              { m with content := m.content ++ (uploaded.map UploadedAttachment.to_contents).flatten }
        | none => messages
  | none =>
      if uploaded.isEmpty then messages
      else
        messages ++
          [{ role := "user"
             content := (uploaded.map UploadedAttachment.to_contents).flatten }]

/-- Error text for a non-success first responses-endpoint reply. -/
def responsesFailureMsg (status : Nat) (body : String) : String :=
  "OpenAI responses API returned " ++ (toString status ++ (": " ++ body))

/-- Error text for a non-success retry reply. -/
def retryFailureMsg (status : Nat) (body : String) : String :=
  "OpenAI responses API returned " ++ (toString status ++ (" after vision retry: " ++ body))

/-- Source: the send/retry block of `responses_message_generation`
(lines 419-465): issue the rich request; on a non-success status, retry
exactly once against the substitute model when `should_retry_with_vision`
holds and a substitution exists, propagating the retry's status and body on
a second failure; surface every other failure with the original status and
body. -/
def sendResponses (env : Env) (model : String) (request : ResponsesRequest) :
    List NetworkCall × Except String ResponsesResponse :=
  match env.firstResponse with
  | HttpResult.success response => ([NetworkCall.responsesRequest request], Except.ok response)
  | HttpResult.failure status body =>
      if shouldRetryWithVision model body then
        match mapToVisionModel model with
        | some mapped =>
            let retryRequest := { request with model := mapped }
            match env.retryResponse with
            | HttpResult.success response =>
                ([NetworkCall.responsesRequest request, NetworkCall.responsesRequest retryRequest],
                  Except.ok response)
            | HttpResult.failure retryStatus retryBody =>
                ([NetworkCall.responsesRequest request, NetworkCall.responsesRequest retryRequest],
                  Except.error (retryFailureMsg retryStatus retryBody))
        | none => ([NetworkCall.responsesRequest request], Except.error (responsesFailureMsg status body))
      else ([NetworkCall.responsesRequest request], Except.error (responsesFailureMsg status body))

/-- Source: the response-parsing suffix of `responses_message_generation`:
collect every output-text and summary-text block across all output items,
join with newline and trim; an empty result is fatal. -/
def parseResponsesOutput (response : ResponsesResponse) : Except String ModelOutput :=
  let segments :=
    (response.output.map fun item =>
      item.content.filterMap fun c =>
        match c with
        | ResponseOutputContent.outputText t => some t
        | ResponseOutputContent.summaryText t => some t
        | ResponseOutputContent.other => none).flatten
  let text := strTrim (strIntercalate "\n" segments)
  if text == "" then Except.error "OpenAI response did not contain output text"
  else Except.ok (ModelOutput.fromText text)

/-- Error text for the attempted-but-total-failure upload policy. -/
def totalUploadFailureMsg : String :=
  "No attachments were uploaded successfully."

/-- Source: `responses_message_generation` — credential check, upload
loop, message translation, attempted-but-total-failure check (before any
rich request), splice, send with one-shot vision fallback, and parse. -/
def responsesMessageGeneration (env : Env) (m : OpenAIModel) (task : ModelTask)
    (attachments : List InstructionAttachment) :
    List NetworkCall × Except String ModelOutput :=
  if env.hasCredential then
    match uploadPhase env attachments with
    | (uploadCalls, attempted, uploaded) =>
        let messages := messagesToResponseInput task.messages
        if attempted && uploaded.isEmpty then
          (uploadCalls, Except.error totalUploadFailureMsg)
        else
          let input := spliceUploaded messages uploaded
          let request : ResponsesRequest := { model := m.model, input := input }
          match sendResponses env m.model request with
          | (sendCalls, Except.ok response) =>
              (uploadCalls ++ sendCalls, parseResponsesOutput response)
          | (sendCalls, Except.error e) => (uploadCalls ++ sendCalls, Except.error e)
  else ([], Except.error missingCredentialMsg)

/-! ## Task entry points (`lib.rs` 128-133, 172-339, 590-723) -/

/-- Error text of the capability gate, naming the model id. -/
def capabilityErrorMsg (modelId : String) : String :=
  "Model `" ++ (modelId ++
    ("` does not yet support file attachments. Select an OpenAI `gpt-5*` model or remove attachments."))

/-- Content of the last returned chat choice
(`choices.pop().and_then(|c| c.message.content).unwrap_or_default()`). -/
def lastChoiceText (choices : List (Option String)) : String :=
  match choices.getLast? with
  | some (some text) => text
  | _ => ""

/-- Source: the chat-completion path of `message_generation` (no
attachments): translate the conversation, build the request, short-circuit
on dry-run before any network call, then require the credential and send. -/
def chatMessageGeneration (env : Env) (m : OpenAIModel) (task : ModelTask) :
    List NetworkCall × Except String ModelOutput :=
  let request : ChatRequest :=
    { model := m.model, messages := task.messages.map messageToChatMessage }
  if task.dry_run then ([], Except.ok ModelOutput.empty)
  else if env.hasCredential then
    ([NetworkCall.chatCompletion request],
      match env.chatResponse with
      | Except.ok choices => Except.ok (ModelOutput.fromText (lastChoiceText choices))
      | Except.error e => Except.error e)
  else ([], Except.error missingCredentialMsg)

/-- Source: `message_generation` — with a non-empty attachment list the
capability gate runs first, then the dry-run short-circuit, then the rich
path; otherwise the chat-completion path. -/
def messageGeneration (env : Env) (m : OpenAIModel) (task : ModelTask) :
    List NetworkCall × Except String ModelOutput :=
  match task.attachments with
  | some attachments =>
      if attachments.isEmpty then chatMessageGeneration env m task
      else if m.supportsAttachments then
        if task.dry_run then ([], Except.ok ModelOutput.empty)
        else responsesMessageGeneration env m task attachments
      else ([], Except.error (capabilityErrorMsg m.id))
  | none => chatMessageGeneration env m task

/-- Source: `image_generation` — build and validate the request (prompt,
size, quality, style), short-circuit on dry-run before any network call,
then require the credential, send, and return the first image result as a
URL output with the fixed `image/png` media type. -/
def imageGeneration (env : Env) (_m : OpenAIModel) (task : ModelTask) :
    List NetworkCall × Except String ModelOutput :=
  match buildImageRequest task with
  | Except.error e => ([], Except.error e)
  | Except.ok request =>
      if task.dry_run then ([], Except.ok ModelOutput.empty)
      else if env.hasCredential then
        ([NetworkCall.imageRequest request],
          match env.imageResponse with
          | Except.error e => Except.error e
          | Except.ok [] => Except.error "Response data is unexpectedly empty"
          | Except.ok (ImageResult.url u :: _) => Except.ok (ModelOutput.fromUrl "image/png" u)
          | Except.ok (ImageResult.other :: _) => Except.error "Unexpected image type")
      else ([], Except.error missingCredentialMsg)

/-- Source: `perform_task` — dispatch on the task kind. -/
def performTask (env : Env) (m : OpenAIModel) (task : ModelTask) :
    List NetworkCall × Except String ModelOutput :=
  match task.kind with
  | ModelTaskKind.messageGeneration => messageGeneration env m task
  | ModelTaskKind.imageGeneration => imageGeneration env m task

/-! ## Model catalog cache (`lib.rs` 853-947)

The two `cached` attributes are modelled explicitly: each tier holds an
optional `(storedAt, value)` entry; an entry stored at `t0` with
time-to-live `ttl` is served while `now < t0 + ttl`; only `Ok` results are
stored (the attributes set `result = true`). -/

/-- One entry of the provider's raw model listing. -/
structure RawModel where
  id : String
deriving DecidableEq, Repr

/-- The two memoization tiers: the outer externally-visible list
(`list`, two minutes) and the inner raw listing
(`list_openai_models`, six hours). -/
structure CatalogCache where
  outer : Option (Nat × List OpenAIModel)
  inner : Option (Nat × List RawModel)
deriving DecidableEq, Repr

/-- Environment for catalog listing: credential availability and the
outcome of the remote model-listing call. -/
structure ListEnv where
  hasCredential : Bool
  remoteModels : Except String (List RawModel)

/-- Time-to-live of the inner tier (`time = 21_600` seconds). -/
def innerTtl : Nat := 21600

/-- Time-to-live of the outer tier (`time = 120` seconds). -/
def outerTtl : Nat := 120

/-- Source: the model names excluded as unversioned by `list`. -/
def excludedModelNames : List String :=
  ["gpt-3.5-turbo", "gpt-3.5-turbo-instruct", "gpt-4", "gpt-4-turbo", "gpt-4o",
   "gpt-4o-mini", "o1", "o1-mini", "tts-1", "tts-1-hd"]

/-- Source: the context-length inference table of `list`. -/
def contextLengthFor (name : String) : Nat :=
  if strStartsWith name "gpt-4-1106" || strStartsWith name "gpt-4-vision" then 128000
  else if strContains name "-32k" then 32768
  else if strContains name "-16k" || name == "gpt-3.5-turbo-1106" then 16385
  else if strStartsWith name "gpt-4" then 8192
  else if strStartsWith name "dall-e-2" then 1000
  else 4096

/-- Source: the input/output-kind inference table of `list`. -/
def inferredKinds (name : String) : List ModelIOKind × List ModelIOKind :=
  if strContains name "vision" || strStartsWith name "gpt-4o" || strStartsWith name "o1"
      || strStartsWith name "gpt-5" || strStartsWith name "gpt-4.1" then
    ([ModelIOKind.text, ModelIOKind.image], [ModelIOKind.text])
  else if strStartsWith name "gpt-4" || strStartsWith name "gpt-3.5" then
    ([ModelIOKind.text], [ModelIOKind.text])
  else if strStartsWith name "dall-e" then
    ([ModelIOKind.text], [ModelIOKind.image])
  else if strStartsWith name "tts" then
    ([ModelIOKind.text], [ModelIOKind.audio])
  else if strStartsWith name "whisper" then
    ([ModelIOKind.audio], [ModelIOKind.text])
  else ([ModelIOKind.text], [ModelIOKind.text])

/-- Source: the body of `list` after the raw listing: sort lexically by
identifier, drop the excluded unversioned names, and enrich each remaining
name with the inferred context length and input/output kinds. -/
def processModels (raw : List RawModel) : List OpenAIModel :=
  (sortBy (fun a b => strLeB a.id b.id) raw).filterMap fun rawModel =>
    let name := rawModel.id
    if excludedModelNames.contains name then none
    else
      let kinds := inferredKinds name
      some { model := name, context_length := contextLengthFor name,
             inputs := kinds.1, outputs := kinds.2 }

/-- Source: the uncached body of `list_openai_models` — `client()?` (the
credential check) followed by the remote listing; an error is not stored. -/
def fetchInner (env : ListEnv) (now : Nat) (cache : CatalogCache) :
    CatalogCache × List NetworkCall × Except String (List RawModel) :=
  if env.hasCredential then
    match env.remoteModels with
    | Except.ok rawModels =>
        ({ cache with inner := some (now, rawModels) }, [NetworkCall.modelListing],
          Except.ok rawModels)
    | Except.error e => (cache, [NetworkCall.modelListing], Except.error e)
  else (cache, [], Except.error missingCredentialMsg)

/-- Source: `list_openai_models` with its six-hour memoization. -/
def listOpenAIModelsCached (env : ListEnv) (now : Nat) (cache : CatalogCache) :
    CatalogCache × List NetworkCall × Except String (List RawModel) :=
  match cache.inner with
  | some (t0, cachedValue) =>
      if now < t0 + innerTtl then (cache, [], Except.ok cachedValue)
      else fetchInner env now cache
  | none => fetchInner env now cache

/-- Source: the uncached body of `list` — the credential is checked before
the inner tier, an absent credential yields `Ok(vec![])`, and a present
credential drives the inner tier and post-processing. The surrounding
outer memoization stores every `Ok` result, the unauthenticated empty list
included. -/
def listModelsCompute (env : ListEnv) (now : Nat) (cache : CatalogCache) :
    CatalogCache × List NetworkCall × Except String (List OpenAIModel) :=
  if env.hasCredential then
    match listOpenAIModelsCached env now cache with
    | (cache1, calls, Except.ok rawModels) =>
        let models := processModels rawModels
        ({ cache1 with outer := some (now, models) }, calls, Except.ok models)
    | (cache1, calls, Except.error e) => (cache1, calls, Except.error e)
  else ({ cache with outer := some (now, []) }, [], Except.ok [])

/-- Source: `list` with its two-minute outer memoization. -/
def listModels (env : ListEnv) (now : Nat) (cache : CatalogCache) :
    CatalogCache × List NetworkCall × Except String (List OpenAIModel) :=
  match cache.outer with
  | some (t0, cachedValue) =>
      if now < t0 + outerTtl then (cache, [], Except.ok cachedValue)
      else listModelsCompute env now cache
  | none => listModelsCompute env now cache

/-! ## Spec-side predicates (for refinement comparison)

These definitions follow the wording of the specification, to be compared
with the source-derived definitions above. -/

/-- Spec wording (§4.1): an attachment is eligible for upload iff its
declared media type is present and is `application/pdf` (media-type names
compare ASCII-case-insensitively) or starts with `image/`, `audio/` or
`video/`. -/
def uploadEligibleSpec (attachment : InstructionAttachment) : Bool :=
  match attachment.file.media_type with
  | some mt =>
      eqIgnoreAsciiCase mt "application/pdf" || strStartsWith mt "image/"
        || strStartsWith mt "audio/" || strStartsWith mt "video/"
  | none => false

/-- Spec wording (§4.4): retry eligibility — the model identifier starts
with an attachment-limited family prefix and the error body contains the
substring pair "Invalid input"/"context stuffing" or the substring
"does not support image inputs". -/
def retryEligibleSpec (model body : String) : Bool :=
  (strStartsWith model "gpt-5" || strStartsWith model "gpt-4.1")
    && (strContains body "Invalid input" && strContains body "context stuffing"
        || strContains body "does not support image inputs")

/-- Spec wording (§4.6): the five enumerated image sizes. -/
def enumeratedSizes : List ((Nat × Nat) × ImageSizeChoice) :=
  [((256, 256), ImageSizeChoice.s256x256),
   ((512, 512), ImageSizeChoice.s512x512),
   ((1024, 1024), ImageSizeChoice.s1024x1024),
   ((1024, 1792), ImageSizeChoice.s1024x1792),
   ((1792, 1024), ImageSizeChoice.s1792x1024)]

/-! ## Concrete example data (used by witnesses and counterexamples) -/

/-- Upload outcome that always succeeds with a fixed file id. -/
def uploadAlwaysOk : InstructionAttachment → Except String String :=
  fun _ => Except.ok "file-123"

/-- Upload outcome that always fails. -/
def uploadAlwaysFail : InstructionAttachment → Except String String :=
  fun _ => Except.error "upload failed"

/-- A PDF attachment with inline content. -/
def attPdf : InstructionAttachment :=
  { «alias» := "doc",
    file := { name := "doc.pdf", media_type := some "application/pdf",
              content := some "pdfdata", transfer_encoding := none } }

/-- A plain-text attachment (not upload-eligible). -/
def attText : InstructionAttachment :=
  { «alias» := "notes",
    file := { name := "notes.txt", media_type := some "text/plain",
              content := some "some notes", transfer_encoding := none } }

/-- An upload-eligible image attachment with no inline content. -/
def attNoContent : InstructionAttachment :=
  { «alias» := "pic",
    file := { name := "pic.png", media_type := some "image/png",
              content := none, transfer_encoding := none } }

/-- A vision-capable model of the attachment-limited family. -/
def mVision : OpenAIModel :=
  { model := "gpt-5", context_length := 4096,
    inputs := [ModelIOKind.text, ModelIOKind.image], outputs := [ModelIOKind.text] }

/-- A text-only model. -/
def mTextOnly : OpenAIModel :=
  { model := "gpt-4-0613", context_length := 8192,
    inputs := [ModelIOKind.text], outputs := [ModelIOKind.text] }

/-- A message-generation task carrying one PDF attachment. -/
def taskAtt : ModelTask :=
  { kind := ModelTaskKind.messageGeneration,
    messages := [{ role := MessageRole.user, parts := [MessagePart.text "hello"] }],
    attachments := some [attPdf], dry_run := false,
    image_size := none, image_quality := none, image_style := none }

/-- A dry-run image-generation task with an unsupported size pair. -/
def dryRunBadSizeTask : ModelTask :=
  { kind := ModelTaskKind.imageGeneration, messages := [],
    attachments := none, dry_run := true,
    image_size := some (100, 100), image_quality := none, image_style := none }

/-- A dry-run message-generation task with the PDF attachment. -/
def dryRunAttTask : ModelTask :=
  { taskAtt with dry_run := true }

/-- Baseline environment: credential available, uploads succeed, the first
rich request fails with the vision-incompatibility body, the retry fails
with a distinct status and body. -/
def envBase : Env :=
  { hasCredential := true, uploadResult := uploadAlwaysOk,
    firstResponse := HttpResult.failure 400 "This model does not support image inputs today",
    retryResponse := HttpResult.failure 500 "boom",
    chatResponse := Except.ok [some "hi"],
    imageResponse := Except.ok [ImageResult.url "http://img"] }

/-- Environment whose uploads all fail. -/
def envUploadsFail : Env :=
  { envBase with uploadResult := uploadAlwaysFail }

/-- Catalog-listing environment without a credential; the remote listing
would return one model if it were reachable. -/
def listEnvNoCred : ListEnv :=
  { hasCredential := false, remoteModels := Except.ok [{ id := "gpt-4.1-mini" }] }

/-- Catalog-listing environment with a credential and the same remote
listing. -/
def listEnvCred : ListEnv :=
  { hasCredential := true, remoteModels := Except.ok [{ id := "gpt-4.1-mini" }] }

/-- The empty catalog cache. -/
def emptyCache : CatalogCache :=
  { outer := none, inner := none }

deriving instance DecidableEq for Except

/-! ## Helper lemmas -/

/-- A list is a prefix of itself followed by anything. -/
theorem isPrefixOf_append_self (l t : List Char) : l.isPrefixOf (l ++ t) = true := by
  induction l with
  | nil => simp [List.isPrefixOf]
  | cons c cs ih => simp [List.isPrefixOf, ih]

/-- Substring search succeeds anywhere in the right part. -/
theorem containsAux_append_left (pat pre s : List Char)
    (h : containsAux pat s = true) : containsAux pat (pre ++ s) = true := by
  induction pre with
  | nil => simpa using h
  | cons c cs ih => simp [containsAux, ih]

/-- Substring search succeeds at the very front. -/
theorem containsAux_self_append (pat t : List Char) :
    containsAux pat (pat ++ t) = true := by
  cases pat with
  | nil => cases t <;> simp [containsAux, List.isPrefixOf]
  | cons c cs => simp [containsAux, isPrefixOf_append_self]

/-- A string of the shape `pre ++ (mid ++ suf)` contains `mid`. -/
theorem strContains_append (pre mid suf : String) :
    strContains (pre ++ (mid ++ suf)) mid = true := by
  unfold strContains
  rw [String.data_append, String.data_append]
  exact containsAux_append_left _ _ _ (containsAux_self_append _ _)

/-- Containment from a decomposition of the character data. -/
theorem strContains_of_parts (pre suf s mid : String)
    (h : s.data = pre.data ++ (mid.data ++ suf.data)) : strContains s mid = true := by
  unfold strContains
  rw [h]
  exact containsAux_append_left _ _ _ (containsAux_self_append _ _)

/-- The first character of a string that starts with a known literal. -/
theorem head_of_append (pre rest : String) (c : Char)
    (hc : pre.data.head? = some c) : (pre ++ rest).data.head? = some c := by
  rw [String.data_append]
  cases hp : pre.data with
  | nil => rw [hp] at hc; cases hc
  | cons a l => rw [hp] at hc; simpa using hc

/-- The capability-gate error names the model id. -/
theorem capabilityErrorMsg_contains_id (modelId : String) :
    strContains (capabilityErrorMsg modelId) modelId = true := by
  unfold capabilityErrorMsg
  exact strContains_append _ _ _

/-- The missing-content error names the attachment alias. -/
theorem noContentErrorMsg_contains_alias (a : String) :
    strContains (noContentErrorMsg a) a = true := by
  unfold noContentErrorMsg
  exact strContains_append _ _ _

/-- The unsupported-size error names the width. -/
theorem unsupportedSizeMsg_contains_w (w h : Nat) :
    strContains (unsupportedSizeMsg w h) (toString w) = true := by
  unfold unsupportedSizeMsg
  exact strContains_append _ _ _

/-- The unsupported-size error names the height. -/
theorem unsupportedSizeMsg_contains_h (w h : Nat) :
    strContains (unsupportedSizeMsg w h) (toString h) = true := by
  apply strContains_of_parts ("Unsupported image size `" ++ (toString w ++ "x")) "`"
  simp [unsupportedSizeMsg, String.data_append]

/-- The first-failure error names the status. -/
theorem responsesFailureMsg_contains_status (status : Nat) (body : String) :
    strContains (responsesFailureMsg status body) (toString status) = true := by
  unfold responsesFailureMsg
  exact strContains_append _ _ _

/-- The first-failure error ends with the body. -/
theorem responsesFailureMsg_contains_body (status : Nat) (body : String) :
    strContains (responsesFailureMsg status body) body = true := by
  apply strContains_of_parts ("OpenAI responses API returned " ++ (toString status ++ ": ")) ""
  simp [responsesFailureMsg, String.data_append]

/-- The retry-failure error names the retry status. -/
theorem retryFailureMsg_contains_status (status : Nat) (body : String) :
    strContains (retryFailureMsg status body) (toString status) = true := by
  unfold retryFailureMsg
  exact strContains_append _ _ _

/-- The retry-failure error ends with the retry body. -/
theorem retryFailureMsg_contains_body (status : Nat) (body : String) :
    strContains (retryFailureMsg status body) body = true := by
  apply strContains_of_parts
    ("OpenAI responses API returned " ++ (toString status ++ " after vision retry: ")) ""
  simp [retryFailureMsg, String.data_append]

/-- An eligible retry always has a substitute: the eligibility prefix test
is exactly the domain of the substitution table. -/
theorem mapToVisionModel_eq_of_eligible (model body : String)
    (h : shouldRetryWithVision model body = true) :
    mapToVisionModel model
      = some (if strStartsWith model "gpt-5" then "gpt-4.1-mini" else "gpt-4o-mini") := by
  unfold shouldRetryWithVision at h
  rw [Bool.and_eq_true] at h
  unfold mapToVisionModel
  by_cases h5 : strStartsWith model "gpt-5" = true
  · simp [h5]
  · have h41 : strStartsWith model "gpt-4.1" = true := by
      rcases Bool.or_eq_true_iff.mp h.1 with h' | h'
      · exact absurd h' h5
      · exact h'
    simp [h5, h41]

/-- The upload of a single attachment performs no network call when the
payload extraction fails, and exactly one file-upload call otherwise. -/
theorem uploadAttachment_calls (env : Env) (a : InstructionAttachment) :
    (uploadAttachment env a).1 = [] ∨
      (uploadAttachment env a).1 = [NetworkCall.fileUpload a.«alias»] := by
  unfold uploadAttachment
  cases attachment_bytes a <;> simp

/-- Every call in the upload-phase trace is a file upload of an eligible
attachment of the list. -/
theorem uploadPhase_trace_sound (env : Env) (atts : List InstructionAttachment) :
    ∀ al, NetworkCall.fileUpload al ∈ (uploadPhase env atts).1 →
      ∃ b ∈ atts, shouldUploadAttachment b = true ∧ b.«alias» = al := by
  induction atts with
  | nil => intro al h; simp [uploadPhase] at h
  | cons a rest ih =>
      intro al h
      unfold uploadPhase at h
      rcases hrest : uploadPhase env rest with ⟨calls, attempted, ups⟩
      rw [hrest] at h
      dsimp only at h
      by_cases ha : shouldUploadAttachment a = true
      · rw [if_pos ha] at h
        rcases hu : uploadAttachment env a with ⟨c, r⟩
        rw [hu] at h
        have hc : c = [] ∨ c = [NetworkCall.fileUpload a.«alias»] := by
          have := uploadAttachment_calls env a
          rw [hu] at this
          simpa using this
        have hmem : NetworkCall.fileUpload al ∈ c ++ calls := by
          cases r <;> simpa using h
        rcases List.mem_append.mp hmem with hl | hr
        · rcases hc with rfl | rfl
          · simp at hl
          · simp at hl
            exact ⟨a, List.mem_cons_self a rest, ha, hl.symm⟩
        · have := ih al (by rw [hrest]; exact hr)
          rcases this with ⟨b, hb, hbu, hba⟩
          exact ⟨b, List.mem_cons_of_mem a hb, hbu, hba⟩
      · rw [if_neg ha] at h
        have := ih al (by rw [hrest]; exact h)
        rcases this with ⟨b, hb, hbu, hba⟩
        exact ⟨b, List.mem_cons_of_mem a hb, hbu, hba⟩

/-- No rich request appears in the upload-phase trace. -/
theorem uploadPhase_no_responses (env : Env) (atts : List InstructionAttachment) :
    ∀ request, NetworkCall.responsesRequest request ∉ (uploadPhase env atts).1 := by
  induction atts with
  | nil => intro request h; simp [uploadPhase] at h
  | cons a rest ih =>
      intro request h
      unfold uploadPhase at h
      rcases hrest : uploadPhase env rest with ⟨calls, attempted, ups⟩
      rw [hrest] at h
      dsimp only at h
      by_cases ha : shouldUploadAttachment a = true
      · rw [if_pos ha] at h
        rcases hu : uploadAttachment env a with ⟨c, r⟩
        rw [hu] at h
        have hc : c = [] ∨ c = [NetworkCall.fileUpload a.«alias»] := by
          have := uploadAttachment_calls env a
          rw [hu] at this
          simpa using this
        have hmem : NetworkCall.responsesRequest request ∈ c ++ calls := by
          cases r <;> simpa using h
        rcases List.mem_append.mp hmem with hl | hr
        · rcases hc with rfl | rfl <;> simp at hl
        · exact ih request (by rw [hrest]; exact hr)
      · rw [if_neg ha] at h
        exact ih request (by rw [hrest]; exact h)

/-- The rich request itself always appears in the send-phase trace. -/
theorem sendResponses_mem (env : Env) (model : String) (request : ResponsesRequest) :
    NetworkCall.responsesRequest request ∈ (sendResponses env model request).1 := by
  unfold sendResponses
  cases env.firstResponse with
  | success r => simp
  | failure s b =>
      dsimp only
      by_cases hr : shouldRetryWithVision model b = true
      · rw [if_pos hr]
        cases mapToVisionModel model with
        | some mapped => cases env.retryResponse <;> simp
        | none => simp
      · rw [if_neg hr]
        simp

/-- Every error of the send phase is a first-failure or retry-failure
message. -/
theorem sendResponses_error_shape (env : Env) (model : String)
    (request : ResponsesRequest) (e : String)
    (h : (sendResponses env model request).2 = Except.error e) :
    (∃ s b, e = responsesFailureMsg s b) ∨ (∃ s b, e = retryFailureMsg s b) := by
  unfold sendResponses at h
  cases henv : env.firstResponse with
  | success r => rw [henv] at h; simp at h
  | failure s b =>
      rw [henv] at h
      dsimp only at h
      by_cases hr : shouldRetryWithVision model b = true
      · rw [if_pos hr] at h
        cases hm : mapToVisionModel model with
        | some mapped =>
            rw [hm] at h
            dsimp only at h
            cases hretry : env.retryResponse with
            | success r => rw [hretry] at h; simp at h
            | failure rs rb =>
                rw [hretry] at h
                simp at h
                exact Or.inr ⟨rs, rb, h.symm⟩
        | none =>
            rw [hm] at h
            simp at h
            exact Or.inl ⟨s, b, h.symm⟩
      · rw [if_neg hr] at h
        simp at h
        exact Or.inl ⟨s, b, h.symm⟩

/-- The first-failure message differs from the total-upload-failure
message. -/
theorem responsesFailureMsg_ne_totalMsg (status : Nat) (body : String) :
    responsesFailureMsg status body ≠ totalUploadFailureMsg := by
  intro h
  have h1 : (responsesFailureMsg status body).data.head? = some 'O' := by
    unfold responsesFailureMsg
    exact head_of_append _ _ _ (by decide)
  rw [h] at h1
  have h2 : totalUploadFailureMsg.data.head? = some 'N' := by decide
  rw [h1] at h2
  exact absurd h2 (by decide)

/-- The retry-failure message differs from the total-upload-failure
message. -/
theorem retryFailureMsg_ne_totalMsg (status : Nat) (body : String) :
    retryFailureMsg status body ≠ totalUploadFailureMsg := by
  intro h
  have h1 : (retryFailureMsg status body).data.head? = some 'O' := by
    unfold retryFailureMsg
    exact head_of_append _ _ _ (by decide)
  rw [h] at h1
  have h2 : totalUploadFailureMsg.data.head? = some 'N' := by decide
  rw [h1] at h2
  exact absurd h2 (by decide)

/-- The parse step never reports the total-upload-failure message. -/
theorem parseResponsesOutput_ne_totalMsg (response : ResponsesResponse) :
    parseResponsesOutput response ≠ Except.error totalUploadFailureMsg := by
  unfold parseResponsesOutput
  by_cases h : (strTrim (strIntercalate "\n"
      ((response.output.map fun item =>
        item.content.filterMap fun c =>
          match c with
          | ResponseOutputContent.outputText t => some t
          | ResponseOutputContent.summaryText t => some t
          | ResponseOutputContent.other => none).flatten)) == "") = true
  · rw [if_pos h]
    intro hc
    simp at hc
    have : ("OpenAI response did not contain output text" : String) ≠ totalUploadFailureMsg := by
      decide
    exact this hc
  · rw [if_neg h]
    intro hc
    simp at hc

/-- A translated chat message lands in the bucket of its source role. -/
theorem chatRole_messageToChatMessage (m : Message) :
    chatRole (messageToChatMessage m) = roleString m.role := by
  rcases m with ⟨role, parts⟩
  cases role <;> rfl

/-- C6: an attachment is classified upload-eligible iff its declared media
type is present and is `application/pdf` or starts with `image/`, `audio/`
or `video/`; every file-upload call in the upload phase belongs to an
eligible attachment of the task, so skipped attachments never appear in an
upload request. -/
theorem attachment_classifier_eligibility :
    ∀ (env : Env) (attachments : List InstructionAttachment) (a : InstructionAttachment),
      shouldUploadAttachment a = uploadEligibleSpec a ∧
      ∀ al, NetworkCall.fileUpload al ∈ (uploadPhase env attachments).1 →
        ∃ b ∈ attachments, shouldUploadAttachment b = true ∧ b.«alias» = al := by
  intro env attachments a
  constructor
  · unfold shouldUploadAttachment uploadEligibleSpec
    cases a.file.media_type with
    | none => rfl
    | some mt =>
        by_cases h1 : eqIgnoreAsciiCase mt "application/pdf" = true
        · simp [h1]
        · by_cases h2 : strStartsWith mt "image/" = true
          · simp [h1, h2]
          · by_cases h3 : strStartsWith mt "audio/" = true
            · simp [h1, h2, h3]
            · by_cases h4 : strStartsWith mt "video/" = true
              · simp [h1, h2, h3, h4]
              · simp [h1, h2, h3, h4]
  · exact uploadPhase_trace_sound env attachments

/-- Witness for C6 at concrete data: the classifier agrees with the spec
predicate on a `text/plain` attachment, and the only upload call of a
task with one PDF and one text attachment belongs to the eligible PDF. -/
theorem attachment_classifier_eligibility_witness :
    shouldUploadAttachment attText = uploadEligibleSpec attText ∧
    ∃ b ∈ [attPdf, attText], shouldUploadAttachment b = true ∧ b.«alias» = "doc" := by
  refine ⟨(attachment_classifier_eligibility envBase [attPdf, attText] attText).1, ?_⟩
  exact (attachment_classifier_eligibility envBase [attPdf, attText] attText).2 "doc" (by decide)

/-- C7: an image-size pair is mapped to an enumerated size exactly when it
is one of the five supported pairs; any other pair fails with an error
naming the given width and height, and the built request carries the
matched size tag. -/
theorem image_size_exact_match :
    ∀ (w h : Nat),
      (∀ choice, ((w, h), choice) ∈ enumeratedSizes → imageSizeFor w h = Except.ok choice) ∧
      ((∀ choice, ((w, h), choice) ∉ enumeratedSizes) →
        imageSizeFor w h = Except.error (unsupportedSizeMsg w h) ∧
        strContains (unsupportedSizeMsg w h) (toString w) = true ∧
        strContains (unsupportedSizeMsg w h) (toString h) = true) ∧
      (∀ (task : ModelTask) (choice : ImageSizeChoice),
        task.image_size = some (w, h) → task.image_quality = none →
        task.image_style = none → imageSizeFor w h = Except.ok choice →
        ∃ request, buildImageRequest task = Except.ok request ∧ request.size = some choice) ∧
      (∀ (task : ModelTask),
        task.image_size = some (w, h) →
        imageSizeFor w h = Except.error (unsupportedSizeMsg w h) →
        buildImageRequest task = Except.error (unsupportedSizeMsg w h)) := by
  intro w h
  refine ⟨?_, ?_, ?_, ?_⟩
  · intro choice hm
    simp only [enumeratedSizes, List.mem_cons, List.not_mem_nil, or_false] at hm
    rcases hm with hm | hm | hm | hm | hm <;>
      (rw [Prod.mk.injEq, Prod.mk.injEq] at hm
       rcases hm with ⟨⟨rfl, rfl⟩, rfl⟩
       rfl)
  · intro hnone
    refine ⟨?_, unsupportedSizeMsg_contains_w w h, unsupportedSizeMsg_contains_h w h⟩
    unfold imageSizeFor
    split
    · exact absurd (by decide) (hnone ImageSizeChoice.s256x256)
    · exact absurd (by decide) (hnone ImageSizeChoice.s512x512)
    · exact absurd (by decide) (hnone ImageSizeChoice.s1024x1024)
    · exact absurd (by decide) (hnone ImageSizeChoice.s1024x1792)
    · exact absurd (by decide) (hnone ImageSizeChoice.s1792x1024)
    · rfl
  · intro task choice hsize hq hs hok
    unfold buildImageRequest
    rw [hsize]
    dsimp only
    rw [hok, hq, hs]
    exact ⟨_, rfl, rfl⟩
  · intro task hsize herr
    unfold buildImageRequest
    rw [hsize]
    dsimp only
    rw [herr]
    rfl

/-- Witness for C7 at concrete sizes: (1024, 1792) is tagged and
(100, 100) fails. -/
theorem image_size_exact_match_witness :
    imageSizeFor 1024 1792 = Except.ok ImageSizeChoice.s1024x1792 ∧
    imageSizeFor 100 100 = Except.error (unsupportedSizeMsg 100 100) := by
  constructor
  · exact (image_size_exact_match 1024 1792).1 ImageSizeChoice.s1024x1792 (by decide)
  · exact ((image_size_exact_match 100 100).2.1
      (by intro choice; cases choice <;> decide)).1

/-- C8: both translations preserve the number and order of messages, and
map roles system to system, user to user and model to assistant (the role
strings are given by `roleString`). -/
theorem message_translation_preserves_order_and_roles :
    ∀ (messages : List Message) (i : Nat),
      (messagesToResponseInput messages).length = messages.length ∧
      ((messagesToResponseInput messages)[i]?).map ResponseMessage.role
        = (messages[i]?).map (fun message => roleString message.role) ∧
      (messages.map messageToChatMessage).length = messages.length ∧
      ((messages.map messageToChatMessage)[i]?).map chatRole
        = (messages[i]?).map (fun message => roleString message.role) := by
  intro messages i
  refine ⟨by simp [messagesToResponseInput], ?_, by simp, ?_⟩
  · unfold messagesToResponseInput
    rw [List.getElem?_map]
    cases messages[i]? <;> rfl
  · rw [List.getElem?_map]
    cases messages[i]? with
    | none => rfl
    | some m => simp [chatRole_messageToChatMessage]

/-- C10: whenever the retry-eligibility predicate holds, the substitute
lookup returns a model, so the no-substitution failure branch of the
fallback controller is unreachable. -/
theorem eligible_retry_has_substitute :
    ∀ (model body : String), shouldRetryWithVision model body = true →
      (mapToVisionModel model).isSome = true := by
  intro model body h
  rw [mapToVisionModel_eq_of_eligible model body h]
  rfl

/-- Witness for C10 at a concrete eligible pair. -/
theorem eligible_retry_has_substitute_witness :
    shouldRetryWithVision "gpt-5" "does not support image inputs" = true ∧
    (mapToVisionModel "gpt-5").isSome = true :=
  ⟨by decide,
   eligible_retry_has_substitute "gpt-5" "does not support image inputs" (by decide)⟩

/-- C5: a message-generation task with a non-empty attachment list on a
model with no non-text input capability fails immediately with an error
naming the model, and no network call (upload included) is performed. -/
theorem capability_gate_blocks :
    ∀ (env : Env) (m : OpenAIModel) (task : ModelTask)
      (attachments : List InstructionAttachment),
      task.kind = ModelTaskKind.messageGeneration →
      task.attachments = some attachments →
      attachments.isEmpty = false →
      m.supportsAttachments = false →
      performTask env m task = ([], Except.error (capabilityErrorMsg m.id)) ∧
      strContains (capabilityErrorMsg m.id) m.id = true := by
  intro env m task attachments hkind hatt hne hsup
  constructor
  · unfold performTask
    rw [hkind]
    dsimp only
    unfold messageGeneration
    rw [hatt]
    dsimp only
    simp [hne, hsup]
  · exact capabilityErrorMsg_contains_id m.id

/-- Witness for C5: a text-only model with a PDF attachment task. -/
theorem capability_gate_blocks_witness :
    performTask envBase mTextOnly taskAtt
      = ([], Except.error (capabilityErrorMsg mTextOnly.id)) :=
  (capability_gate_blocks envBase mTextOnly taskAtt [attPdf] rfl rfl (by decide)
    (by decide)).1

/-- C2: on a failed rich request the retry-eligibility predicate equals
the spec wording; when eligible, exactly one retry is issued against the
fixed substitute of the family (`gpt-4.1-mini` for `gpt-5*`, `gpt-4o-mini`
for `gpt-4.1*`), a retry success is returned, a retry failure propagates
the retry's status and body; when not eligible, no retry is issued and the
original status and body are surfaced. -/
theorem rich_request_failure_retry_policy :
    ∀ (env : Env) (model : String) (request : ResponsesRequest)
      (status : Nat) (body : String),
      env.firstResponse = HttpResult.failure status body →
      shouldRetryWithVision model body = retryEligibleSpec model body ∧
      (shouldRetryWithVision model body = true →
        ∃ substitute,
          mapToVisionModel model = some substitute ∧
          (strStartsWith model "gpt-5" = true → substitute = "gpt-4.1-mini") ∧
          (strStartsWith model "gpt-5" = false → substitute = "gpt-4o-mini") ∧
          (sendResponses env model request).1
            = [NetworkCall.responsesRequest request,
               NetworkCall.responsesRequest { request with model := substitute }] ∧
          (∀ response, env.retryResponse = HttpResult.success response →
            (sendResponses env model request).2 = Except.ok response) ∧
          (∀ rs rb, env.retryResponse = HttpResult.failure rs rb →
            (sendResponses env model request).2 = Except.error (retryFailureMsg rs rb) ∧
            strContains (retryFailureMsg rs rb) (toString rs) = true ∧
            strContains (retryFailureMsg rs rb) rb = true)) ∧
      (shouldRetryWithVision model body = false →
        (sendResponses env model request).1 = [NetworkCall.responsesRequest request] ∧
        (sendResponses env model request).2 = Except.error (responsesFailureMsg status body) ∧
        strContains (responsesFailureMsg status body) (toString status) = true ∧
        strContains (responsesFailureMsg status body) body = true) := by
  intro env model request status body hfirst
  refine ⟨rfl, ?_, ?_⟩
  · intro helig
    have hm := mapToVisionModel_eq_of_eligible model body helig
    refine ⟨_, hm, ?_, ?_, ?_, ?_, ?_⟩
    · intro h5
      rw [if_pos h5]
    · intro h5
      rw [if_neg (by simp [h5])]
    · unfold sendResponses
      rw [hfirst]
      dsimp only
      rw [if_pos helig, hm]
      dsimp only
      cases hr : env.retryResponse <;> rfl
    · intro response hr
      unfold sendResponses
      rw [hfirst]
      dsimp only
      rw [if_pos helig, hm]
      dsimp only
      rw [hr]
    · intro rs rb hr
      refine ⟨?_, retryFailureMsg_contains_status rs rb, retryFailureMsg_contains_body rs rb⟩
      unfold sendResponses
      rw [hfirst]
      dsimp only
      rw [if_pos helig, hm]
      dsimp only
      rw [hr]
  · intro hne
    refine ⟨?_, ?_, responsesFailureMsg_contains_status status body,
      responsesFailureMsg_contains_body status body⟩
    · unfold sendResponses
      rw [hfirst]
      dsimp only
      rw [if_neg (by simp [hne])]
    · unfold sendResponses
      rw [hfirst]
      dsimp only
      rw [if_neg (by simp [hne])]

/-- Witness for C2: a concrete `gpt-5` request whose first and retry calls
both fail propagates the retry's status and body. -/
theorem rich_request_failure_retry_policy_witness :
    (sendResponses envBase "gpt-5" { model := "gpt-5", input := [] }).2
      = Except.error (retryFailureMsg 500 "boom") := by
  have h := rich_request_failure_retry_policy envBase "gpt-5"
    { model := "gpt-5", input := [] } 400
    "This model does not support image inputs today" rfl
  rcases h.2.1 (by decide) with ⟨sub, hsub, h5, h5f, htrace, hsucc, hfail⟩
  exact (hfail 500 "boom" rfl).1

/-- C9: an upload-eligible attachment whose file carries no inline content
fails its upload with an error naming the alias (it is not silently
skipped), the failure performs no network call, and it counts as an
attempted upload: alone in a task it triggers the total-failure error. -/
theorem missing_content_upload_not_skipped :
    ∀ (env : Env) (a : InstructionAttachment),
      shouldUploadAttachment a = true →
      a.file.content = none →
      attachment_bytes a = Except.error (noContentErrorMsg a.«alias») ∧
      strContains (noContentErrorMsg a.«alias») a.«alias» = true ∧
      uploadAttachment env a = ([], Except.error (noContentErrorMsg a.«alias»)) ∧
      (uploadPhase env [a]).2.1 = true ∧
      (uploadPhase env [a]).2.2 = [] ∧
      ∀ (m : OpenAIModel) (task : ModelTask),
        env.hasCredential = true →
        (responsesMessageGeneration env m task [a]).2
          = Except.error totalUploadFailureMsg := by
  intro env a helig hcontent
  have hb : attachment_bytes a = Except.error (noContentErrorMsg a.«alias») := by
    unfold attachment_bytes
    rw [hcontent]
  have hu : uploadAttachment env a = ([], Except.error (noContentErrorMsg a.«alias»)) := by
    unfold uploadAttachment
    rw [hb]
  have hup : uploadPhase env [a] = ([], true, []) := by
    simp [uploadPhase, helig, hu]
  refine ⟨hb, noContentErrorMsg_contains_alias a.«alias», hu, by rw [hup], by rw [hup], ?_⟩
  intro m task hcred
  unfold responsesMessageGeneration
  rw [if_pos hcred, hup]
  rfl

/-- Witness for C9: the `pic` attachment with no content triggers both the
aliased error and the total-failure policy. -/
theorem missing_content_upload_not_skipped_witness :
    attachment_bytes attNoContent = Except.error (noContentErrorMsg "pic") ∧
    (responsesMessageGeneration envBase mVision taskAtt [attNoContent]).2
      = Except.error totalUploadFailureMsg := by
  have h := missing_content_upload_not_skipped envBase attNoContent (by decide) rfl
  exact ⟨h.1, h.2.2.2.2.2 mVision taskAtt rfl⟩

/-- C3: when every attempted upload of an attachment-bearing task fails,
the task fails with the total-failure error and the rich request is not
sent; when at least one attempted upload succeeded, the rich request is
sent and the task does not fail with the total-failure error. -/
theorem attempted_total_upload_failure_policy :
    ∀ (env : Env) (m : OpenAIModel) (task : ModelTask)
      (attachments : List InstructionAttachment),
      task.kind = ModelTaskKind.messageGeneration →
      task.attachments = some attachments →
      attachments.isEmpty = false →
      m.supportsAttachments = true →
      task.dry_run = false →
      env.hasCredential = true →
      ((uploadPhase env attachments).2.1 = true →
        (uploadPhase env attachments).2.2 = [] →
        (performTask env m task).2 = Except.error totalUploadFailureMsg ∧
        ∀ request, NetworkCall.responsesRequest request ∉ (performTask env m task).1) ∧
      ((uploadPhase env attachments).2.2 ≠ [] →
        (∃ request, NetworkCall.responsesRequest request ∈ (performTask env m task).1) ∧
        (performTask env m task).2 ≠ Except.error totalUploadFailureMsg) := by
  intro env m task attachments hkind hatt hne hsup hdry hcred
  have hrun : performTask env m task = responsesMessageGeneration env m task attachments := by
    unfold performTask
    rw [hkind]
    dsimp only
    unfold messageGeneration
    rw [hatt]
    dsimp only
    simp [hne, hsup, hdry]
  rcases hup : uploadPhase env attachments with ⟨calls, attempted, uploaded⟩
  constructor
  · intro hatt1 hemp1
    have ha : attempted = true := hatt1
    have he : uploaded = [] := hemp1
    have hcond : (attempted && uploaded.isEmpty) = true := by rw [ha, he]; rfl
    have hres : responsesMessageGeneration env m task attachments
        = (calls, Except.error totalUploadFailureMsg) := by
      unfold responsesMessageGeneration
      rw [if_pos hcred, hup]
      dsimp only
      rw [if_pos hcond]
    rw [hrun, hres]
    refine ⟨rfl, ?_⟩
    intro request hmem
    have hno := uploadPhase_no_responses env attachments request
    rw [hup] at hno
    exact hno hmem
  · intro hne2
    have he : uploaded ≠ [] := hne2
    have hefalse : uploaded.isEmpty = false := by
      cases uploaded with
      | nil => exact absurd rfl he
      | cons u us => rfl
    have hcond : ¬((attempted && uploaded.isEmpty) = true) := by simp [hefalse]
    constructor
    · refine ⟨{ model := m.model, input := spliceUploaded (messagesToResponseInput task.messages) uploaded }, ?_⟩
      rw [hrun]
      unfold responsesMessageGeneration
      rw [if_pos hcred, hup]
      dsimp only
      rw [if_neg hcond]
      rcases hsend : sendResponses env m.model { model := m.model, input := spliceUploaded (messagesToResponseInput task.messages) uploaded } with ⟨sendCalls, r⟩
      have hm0 := sendResponses_mem env m.model { model := m.model, input := spliceUploaded (messagesToResponseInput task.messages) uploaded }
      rw [hsend] at hm0
      cases r <;> exact List.mem_append_right calls hm0
    · rw [hrun]
      unfold responsesMessageGeneration
      rw [if_pos hcred, hup]
      dsimp only
      rw [if_neg hcond]
      rcases hsend : sendResponses env m.model { model := m.model, input := spliceUploaded (messagesToResponseInput task.messages) uploaded } with ⟨sendCalls, r⟩
      cases r with
      | ok response =>
          exact parseResponsesOutput_ne_totalMsg response
      | error e =>
          intro hc
          have he2 : e = totalUploadFailureMsg := by
            have hc2 : Except.error (ε := String) (α := ModelOutput) e
                = Except.error totalUploadFailureMsg := hc
            injection hc2
          have hshape := sendResponses_error_shape env m.model { model := m.model, input := spliceUploaded (messagesToResponseInput task.messages) uploaded } e (by rw [hsend])
          rcases hshape with ⟨s, b, rfl⟩ | ⟨s, b, rfl⟩
          · exact responsesFailureMsg_ne_totalMsg s b he2
          · exact retryFailureMsg_ne_totalMsg s b he2

/-- Witness for C3: with one eligible attachment whose upload fails, the
task fails with the total-failure error. -/
theorem attempted_total_upload_failure_policy_witness :
    (performTask envUploadsFail mVision taskAtt).2
      = Except.error totalUploadFailureMsg := by
  have h := attempted_total_upload_failure_policy envUploadsFail mVision taskAtt [attPdf]
    rfl rfl (by decide) (by decide) rfl rfl
  exact (h.1 (by decide) (by decide)).1

/-- Counterexample to C4 as stated: a dry-run image task with the
unsupported size pair (100, 100) returns the unsupported-size error, not a
well-formed empty output (the size validation runs before the dry-run
short-circuit). -/
theorem dry_run_empty_output_counterexample :
    dryRunBadSizeTask.dry_run = true ∧
    (performTask envBase mVision dryRunBadSizeTask).2
      = Except.error (unsupportedSizeMsg 100 100) ∧
    (performTask envBase mVision dryRunBadSizeTask).2 ≠ Except.ok ModelOutput.empty := by
  refine ⟨rfl, by decide, by decide⟩

/-- C4 amended: a dry-run task performs no network call; message
generation returns the empty output exactly unless the capability gate
rejects an attachment-bearing task, and image generation returns the empty
output exactly when the size/quality/style validation passes (its error
otherwise). -/
theorem dry_run_no_network_amended :
    ∀ (env : Env) (m : OpenAIModel) (task : ModelTask),
      task.dry_run = true →
      (performTask env m task).1 = [] ∧
      (task.kind = ModelTaskKind.messageGeneration →
        ((performTask env m task).2 = Except.ok ModelOutput.empty ↔
          ¬∃ attachments, task.attachments = some attachments ∧
            attachments.isEmpty = false ∧ m.supportsAttachments = false)) ∧
      (task.kind = ModelTaskKind.imageGeneration →
        (performTask env m task).2
          = (buildImageRequest task).map fun _ => ModelOutput.empty) := by
  intro env m task hdry
  refine ⟨?_, ?_, ?_⟩
  · unfold performTask
    cases hk : task.kind
    · dsimp only
      unfold messageGeneration
      cases hatt : task.attachments with
      | none => unfold chatMessageGeneration; rw [if_pos hdry]
      | some atts =>
          dsimp only
          by_cases hae : atts.isEmpty = true
          · rw [if_pos hae]
            unfold chatMessageGeneration
            rw [if_pos hdry]
          · rw [if_neg hae]
            by_cases hs : m.supportsAttachments = true
            · rw [if_pos hs, if_pos hdry]
            · rw [if_neg hs]
    · dsimp only
      unfold imageGeneration
      cases hb : buildImageRequest task with
      | error e => rfl
      | ok request =>
          dsimp only
          rw [if_pos hdry]
  · intro hk
    unfold performTask
    rw [hk]
    dsimp only
    unfold messageGeneration
    cases hatt : task.attachments with
    | none =>
        unfold chatMessageGeneration
        rw [if_pos hdry]
        simp
    | some atts =>
        dsimp only
        by_cases hae : atts.isEmpty = true
        · rw [if_pos hae]
          unfold chatMessageGeneration
          rw [if_pos hdry]
          simp only [true_iff, eq_self_iff_true]
          rintro ⟨a, ha, hf, _⟩
          rw [Option.some.injEq] at ha
          subst ha
          rw [hae] at hf
          simp at hf
        · rw [if_neg hae]
          by_cases hs : m.supportsAttachments = true
          · rw [if_pos hs, if_pos hdry]
            constructor
            · intro _
              rintro ⟨a, ha, _, hfs⟩
              rw [hs] at hfs
              simp at hfs
            · intro _
              rfl
          · rw [if_neg hs]
            constructor
            · intro h
              simp at h
            · intro hno
              exfalso
              refine hno ⟨atts, rfl, ?_, ?_⟩
              · cases hie : atts.isEmpty
                · rfl
                · exact absurd hie hae
              · cases hie : m.supportsAttachments
                · rfl
                · exact absurd hie hs
  · intro hk
    unfold performTask
    rw [hk]
    dsimp only
    unfold imageGeneration
    cases hb : buildImageRequest task with
    | error e => rfl
    | ok request =>
        dsimp only
        rw [if_pos hdry]
        rfl

/-- Witness for the amended C4: a dry-run attachment task on a capable
model performs no network call and yields the empty output. -/
theorem dry_run_no_network_amended_witness :
    (performTask envBase mVision dryRunAttTask).1 = [] ∧
    (performTask envBase mVision dryRunAttTask).2 = Except.ok ModelOutput.empty := by
  have h := dry_run_no_network_amended envBase mVision dryRunAttTask rfl
  refine ⟨h.1, ?_⟩
  exact (h.2.1 rfl).mpr (by rintro ⟨a, ha, hf, hsup⟩; exact absurd hsup (by decide))

/-- Counterexample to C1 as stated: an unauthenticated call writes its
empty result into the outer (two-minute) cache tier, so a call made 60
seconds later, after a credential became available, performs no fetch and
still returns the stale empty list — while a fresh fetch at that time
would return a non-empty catalog. -/
theorem unauthenticated_empty_list_cached_counterexample :
    (listModels listEnvNoCred 0 emptyCache).2.2 = Except.ok [] ∧
    (listModels listEnvNoCred 0 emptyCache).1.outer = some (0, []) ∧
    (listModels listEnvCred 60 (listModels listEnvNoCred 0 emptyCache).1).2.1 = [] ∧
    (listModels listEnvCred 60 (listModels listEnvNoCred 0 emptyCache).1).2.2
      = Except.ok [] ∧
    (listModels listEnvCred 60 emptyCache).2.2
      = Except.ok [{ model := "gpt-4.1-mini", context_length := 8192,
                     inputs := [ModelIOKind.text, ModelIOKind.image],
                     outputs := [ModelIOKind.text] }] := by
  refine ⟨rfl, rfl, rfl, rfl, by decide⟩

/-- C1 amended: an unauthenticated call (with no valid outer entry)
returns an empty list, not an error; it never touches the inner tier and
performs no network call, but its empty result is memoized in the outer
two-minute tier; a credentialed call made after that outer entry expires
performs the fresh fetch. -/
theorem unauthenticated_empty_list_amended :
    ∀ (env : ListEnv) (now : Nat) (cache : CatalogCache),
      env.hasCredential = false →
      (∀ t0 v, cache.outer = some (t0, v) → t0 + outerTtl ≤ now) →
      (listModels env now cache).2.2 = Except.ok [] ∧
      (listModels env now cache).2.1 = [] ∧
      (listModels env now cache).1.inner = cache.inner ∧
      (listModels env now cache).1.outer = some (now, []) ∧
      (∀ (env2 : ListEnv) (later : Nat) (raw : List RawModel),
        env2.hasCredential = true →
        env2.remoteModels = Except.ok raw →
        now + outerTtl ≤ later →
        cache.inner = none →
        (listModels env2 later (listModels env now cache).1).2.1
          = [NetworkCall.modelListing] ∧
        (listModels env2 later (listModels env now cache).1).2.2
          = Except.ok (processModels raw)) := by
  intro env now cache hcred houter
  have hcompute : listModels env now cache
      = ({ cache with outer := some (now, []) }, [], Except.ok []) := by
    unfold listModels
    cases ho : cache.outer with
    | none =>
        dsimp only
        unfold listModelsCompute
        rw [if_neg (by simp [hcred])]
    | some tv =>
        rcases tv with ⟨t0, v⟩
        dsimp only
        have hle := houter t0 v ho
        rw [if_neg (by omega)]
        unfold listModelsCompute
        rw [if_neg (by simp [hcred])]
  rw [hcompute]
  refine ⟨rfl, rfl, rfl, rfl, ?_⟩
  intro env2 later raw hc2 hr2 hlater hinner
  have hfetch : listModels env2 later ({ cache with outer := some (now, []) })
      = ({ outer := some (later, processModels raw), inner := some (later, raw) },
         [NetworkCall.modelListing], Except.ok (processModels raw)) := by
    unfold listModels
    dsimp only
    rw [if_neg (by omega)]
    unfold listModelsCompute
    rw [if_pos hc2]
    unfold listOpenAIModelsCached
    dsimp only
    rw [hinner]
    dsimp only
    unfold fetchInner
    rw [if_pos hc2, hr2]
  rw [hfetch]
  exact ⟨rfl, rfl⟩

/-- Witness for the amended C1: starting from the empty cache with no
credential, the call yields the empty list, and a credentialed call
exactly at the outer expiry fetches and returns the processed catalog. -/
theorem unauthenticated_empty_list_amended_witness :
    (listModels listEnvNoCred 0 emptyCache).2.2 = Except.ok [] ∧
    (listModels listEnvCred 120 (listModels listEnvNoCred 0 emptyCache).1).2.2
      = Except.ok (processModels [{ id := "gpt-4.1-mini" }]) := by
  have h := unauthenticated_empty_list_amended listEnvNoCred 0 emptyCache rfl
    (by intro t0 v hv; simp [emptyCache] at hv)
  refine ⟨h.1, ?_⟩
  exact (h.2.2.2.2 listEnvCred 120 [{ id := "gpt-4.1-mini" }] rfl rfl (by decide) rfl).2
